import Mathlib

/-!
Verification of the core of the drone-cortex-m hardware-abstraction layer.

The development shallowly embeds the Rust sources:
* `src/processor.rs` — the global interrupt mask (`PRIMASK`) and the nestable
  critical-section primitive `interrupt::critical`;
* `src/peripherals/dma.rs` — the polling closures of the `transfer_complete`
  and `half_transfer` routine futures, and the `compose`/`decompose`
  ownership-shape transformations of a DMA channel;
* `src/peripherals/spi.rs` — `compose`/`decompose` and the
  `spe_after`/`txdmaen_after` flag-cleared-during combinators;
* `src/thr/stream.rs` — the blocking stream adapter `StreamTrunkWait`;
* `src/panicking.rs` together with `src/itm/macros.rs` — the trace-port
  printing guards and the panic-to-reset sequence;
* a linear-resource machine for the Exclusive-token ownership discipline,
  which in Rust is enforced by move-only values (no runtime code).

Machine integers are modelled as `Nat`; hardware registers as explicit state
records threaded through the functions; closures as state transformers.
-/

/-! ## Processor: global interrupt mask (src/processor.rs) -/

/-- Global processor interrupt state.  `primask` is the mask bit of the
`PRIMASK` special register: `true` means all maskable interrupts are disabled
(the state after `cpsid i`), `false` means they are enabled. -/
structure Cpu where
  primask : Bool
deriving DecidableEq, Repr

/-- Embeds `interrupt::disable` (src/processor.rs): `cpsid i` sets the
`PRIMASK` mask bit. -/
def interrupt.disable (c : Cpu) : Cpu :=
  { c with primask := true }

/-- Embeds `interrupt::enable` (src/processor.rs): `cpsie i` clears the
`PRIMASK` mask bit. -/
def interrupt.enable (c : Cpu) : Cpu :=
  { c with primask := false }

/-- Embeds `primask()` (src/processor.rs): `mrs r, PRIMASK` reads the register
as a machine word whose bit 0 is the mask bit. -/
def interrupt.primaskRead (c : Cpu) : Nat :=
  if c.primask then 1 else 0

/-- The mask operations of a state type.  `interrupt::critical` is written once
against these three primitives; instantiating them at `Cpu` gives the concrete
embedding, and instantiating them at a state extended with a ghost counter lets
us observe how many times the closure is invoked. -/
structure MaskOps (σ : Type) where
  primaskOf : σ → Nat
  doDisable : σ → σ
  doEnable : σ → σ

/-- Embeds `interrupt::critical` (src/processor.rs lines 158-177), generic in
the state carrier: read `PRIMASK`, unconditionally disable interrupts, run the
closure, then re-enable interrupts only if bit 0 of the saved `PRIMASK` value
was clear (interrupts enabled on entry), and return the closure's value. -/
def interrupt.criticalOver (ops : MaskOps σ) (f : σ → ρ × σ) (s : σ) : ρ × σ :=
  let pm := ops.primaskOf s
  let s1 := ops.doDisable s
  let rs := f s1
  let s2 := if pm &&& 1 == 0 then ops.doEnable rs.2 else rs.2
  (rs.1, s2)

/-- The concrete mask operations of the `Cpu` state. -/
def cpuMaskOps : MaskOps Cpu :=
  ⟨interrupt.primaskRead, interrupt.disable, interrupt.enable⟩

/-- Embeds `interrupt::critical` (src/processor.rs) at the concrete `Cpu`
state. -/
def interrupt.critical (f : Cpu → ρ × Cpu) (c : Cpu) : ρ × Cpu :=
  interrupt.criticalOver cpuMaskOps f c

/-- `n` nested `interrupt::critical` calls around the innermost closure `f`:
depth 0 is `f` itself, depth `n+1` wraps one more `critical` frame around. -/
def interrupt.nestedCritical : Nat → (Cpu → ρ × Cpu) → Cpu → ρ × Cpu
  | 0, f, c => f c
  | n + 1, f, c => interrupt.critical (interrupt.nestedCritical n f) c

/-- A closure is mask-preserving when, run with interrupts disabled, it leaves
them disabled.  Every closure built from `interrupt.critical` frames,
`interrupt.disable` calls and pure computation has this property; only the
`interrupt.enable` primitive (documented unsafe inside a critical section,
excluded from the public surface) breaks it. -/
def MaskPreserving (f : Cpu → ρ × Cpu) : Prop :=
  ∀ c : Cpu, c.primask = true → ((f c).2).primask = true

/-- The `Cpu` state extended with a ghost counter of closure invocations.  The
counter is not hardware state; it only observes calls. -/
structure CpuGhost where
  cpu : Cpu
  calls : Nat
deriving DecidableEq, Repr

/-- The mask operations lifted to the ghost-instrumented state; none of them
touches the call counter, exactly as the processor's `cpsid`/`cpsie`/`mrs`
instructions cannot. -/
def ghostMaskOps : MaskOps CpuGhost where
  primaskOf := fun s => interrupt.primaskRead s.cpu
  doDisable := fun s => { s with cpu := interrupt.disable s.cpu }
  doEnable := fun s => { s with cpu := interrupt.enable s.cpu }

/-- Lifts a closure over `Cpu` to the ghost state, bumping the call counter by
one on each invocation. -/
def ghostClosure (g : Cpu → ρ × Cpu) : CpuGhost → ρ × CpuGhost :=
  fun s => ((g s.cpu).1, ⟨(g s.cpu).2, s.calls + 1⟩)

/-! ## DMA routine futures (src/peripherals/dma.rs) -/

/-- The per-channel status flags of the `DMA_ISR` register read by the polling
closures: transfer error (`TEIF`), transfer complete (`TCIF`) and half
transfer (`HTIF`). -/
structure DmaIsr where
  teif : Bool
  tcif : Bool
  htif : Bool
deriving DecidableEq, Repr

/-- The register state a polling closure can observe and change: the `DMA_ISR`
flags of its channel and whether the channel's global clear bit (`IFCR.CGIF`)
has been written. -/
structure DmaChState where
  isr : DmaIsr
  cgifWritten : Bool
deriving DecidableEq, Repr

/-- Effect of `self.ifcr_cgif.set_bit_band()`: writing 1 to the channel's
`CGIF` clear bit clears all the channel's `DMA_ISR` flags (hardware semantics
of the interrupt flag clear register). -/
def ifcrCgifSet (_ : DmaChState) : DmaChState :=
  ⟨⟨false, false, false⟩, true⟩

/-- One answer of a routine-future polling closure: either suspend (`yield`)
or resolve with a `Result` carrying the peripheral handle. -/
inductive RoutinePoll (η : Type) where
  | pending : RoutinePoll η
  | resolved : Except η η → RoutinePoll η
deriving Repr

/-- Embeds one resumption of the closure inside `transfer_complete`
(src/peripherals/dma.rs lines 436-450): test `ISR.TEIF` first and resolve
`Err(self)` after setting the clear bit; else test `ISR.TCIF` and resolve
`Ok(self)` after setting the clear bit; else `yield`. -/
def transferCompleteStep (h : η) (s : DmaChState) : RoutinePoll η × DmaChState :=
  if s.isr.teif then (.resolved (.error h), ifcrCgifSet s)
  else if s.isr.tcif then (.resolved (.ok h), ifcrCgifSet s)
  else (.pending, s)

/-- Embeds one resumption of the closure inside `half_transfer`
(src/peripherals/dma.rs lines 452-466): identical to `transferCompleteStep`
except the completion flag tested is `ISR.HTIF`. -/
def halfTransferStep (h : η) (s : DmaChState) : RoutinePoll η × DmaChState :=
  if s.isr.teif then (.resolved (.error h), ifcrCgifSet s)
  else if s.isr.htif then (.resolved (.ok h), ifcrCgifSet s)
  else (.pending, s)

/-- Drives a routine future against a simulated vector: the i-th element of
`polls` is the `DMA_ISR` snapshot the closure observes at its i-th resumption.
Returns `some (yields, result, final registers)` when the future resolves
within the given snapshots (`yields` counts the suspensions taken before
resolution), `none` when every snapshot left it pending. -/
def runRoutine (step : η → DmaChState → RoutinePoll η × DmaChState) (h : η) :
    List DmaIsr → Nat → Option (Nat × Except η η × DmaChState)
  | [], _ => none
  | isr :: rest, n =>
    match step h ⟨isr, false⟩ with
    | (.pending, _) => runRoutine step h rest (n + 1)
    | (.resolved r, s1) => some (n, r, s1)

/-! ## Peripheral composition (src/peripherals/dma.rs, src/peripherals/spi.rs)

The register tokens are zero-sized type-state values in Rust; the content of
`compose`/`decompose` is pure field routing.  We keep each token type as an
abstract type parameter, so the theorems hold exactly because the routing
moves every field to its place — the functions cannot invent, drop or swap
tokens.  The `PhantomData` marker fields carry no data and are omitted.  The
DMA channel is embedded as instantiated for `Dma1Ch1` under the
non-`stm32l4x*` features (no `CSELR` field; the `stm32l4x*` variant adds one
more field routed identically). -/

/-- The `Dma1Ch1Items` bundle (src/peripherals/dma.rs lines 176-197 as
instantiated for DMA1 channel 1): the interrupt binding and the thirteen
register/field tokens the channel owns. -/
structure Dma1Ch1Items (ι γ₁ γ₂ γ₃ γ₄ δ₁ δ₂ δ₃ δ₄ ε₁ ε₂ ε₃ ε₄ : Type) where
  dma1_ch1 : ι
  dma1_ccr1 : γ₁
  dma1_cmar1 : γ₂
  dma1_cndtr1 : γ₃
  dma1_cpar1 : γ₄
  dma1_ifcr_cgif1 : δ₁
  dma1_ifcr_chtif1 : δ₂
  dma1_ifcr_ctcif1 : δ₃
  dma1_ifcr_cteif1 : δ₄
  dma1_isr_gif1 : ε₁
  dma1_isr_htif1 : ε₂
  dma1_isr_tcif1 : ε₃
  dma1_isr_teif1 : ε₄

/-- The `Dma1Ch1` handle (src/peripherals/dma.rs lines 154-174 as
instantiated for DMA1 channel 1). -/
structure Dma1Ch1 (ι γ₁ γ₂ γ₃ γ₄ δ₁ δ₂ δ₃ δ₄ ε₁ ε₂ ε₃ ε₄ : Type) where
  irq : ι
  ccr : γ₁
  cmar : γ₂
  cndtr : γ₃
  cpar : γ₄
  ifcr_cgif : δ₁
  ifcr_chtif : δ₂
  ifcr_ctcif : δ₃
  ifcr_cteif : δ₄
  isr_gif : ε₁
  isr_htif : ε₂
  isr_tcif : ε₃
  isr_teif : ε₄

/-- Embeds `Dma::compose` (src/peripherals/dma.rs lines 296-314): builds the
handle from the items bundle, field for field. -/
def Dma1Ch1.compose (items : Dma1Ch1Items ι γ₁ γ₂ γ₃ γ₄ δ₁ δ₂ δ₃ δ₄ ε₁ ε₂ ε₃ ε₄) :
    Dma1Ch1 ι γ₁ γ₂ γ₃ γ₄ δ₁ δ₂ δ₃ δ₄ ε₁ ε₂ ε₃ ε₄ where
  irq := items.dma1_ch1
  ccr := items.dma1_ccr1
  cmar := items.dma1_cmar1
  cndtr := items.dma1_cndtr1
  cpar := items.dma1_cpar1
  ifcr_cgif := items.dma1_ifcr_cgif1
  ifcr_chtif := items.dma1_ifcr_chtif1
  ifcr_ctcif := items.dma1_ifcr_ctcif1
  ifcr_cteif := items.dma1_ifcr_cteif1
  isr_gif := items.dma1_isr_gif1
  isr_htif := items.dma1_isr_htif1
  isr_tcif := items.dma1_isr_tcif1
  isr_teif := items.dma1_isr_teif1

/-- Embeds `Dma::decompose` (src/peripherals/dma.rs lines 343-361): consumes
the handle and returns the items bundle, field for field. -/
def Dma1Ch1.decompose (d : Dma1Ch1 ι γ₁ γ₂ γ₃ γ₄ δ₁ δ₂ δ₃ δ₄ ε₁ ε₂ ε₃ ε₄) :
    Dma1Ch1Items ι γ₁ γ₂ γ₃ γ₄ δ₁ δ₂ δ₃ δ₄ ε₁ ε₂ ε₃ ε₄ where
  dma1_ch1 := d.irq
  dma1_ccr1 := d.ccr
  dma1_cmar1 := d.cmar
  dma1_cndtr1 := d.cndtr
  dma1_cpar1 := d.cpar
  dma1_ifcr_cgif1 := d.ifcr_cgif
  dma1_ifcr_chtif1 := d.ifcr_chtif
  dma1_ifcr_ctcif1 := d.ifcr_ctcif
  dma1_ifcr_cteif1 := d.ifcr_cteif
  dma1_isr_gif1 := d.isr_gif
  dma1_isr_htif1 := d.isr_htif
  dma1_isr_tcif1 := d.isr_tcif
  dma1_isr_teif1 := d.isr_teif

/-- The register-token tags of the SPI bundles: `Sbt` (synchronous token, the
tag of freshly taken tokens) and `Fbt` (forkable token, the tag of the `CR1`
and `CR2` tokens inside a composed `Spi`).  The tag is compile-time type
state; the conversion `into()` between them carries the token's register
identity unchanged. -/
inductive RegTag where
  | sbt : RegTag
  | fbt : RegTag
deriving DecidableEq, Repr

/-- A tagged register token: `payload` is all the data the token carries (its
register identity); the tag is a phantom index. -/
structure TaggedReg (α : Type) (t : RegTag) where
  payload : α
deriving DecidableEq, Repr

/-- Embeds the `into()` conversion applied by `Spi::compose` to the `CR1` and
`CR2` tokens: retags `Sbt` to `Fbt`, preserving the register identity. -/
def TaggedReg.retag (r : TaggedReg α .sbt) : TaggedReg α .fbt :=
  ⟨r.payload⟩

/-- The `Spi1Items` bundle (src/peripherals/spi.rs lines 118-130 as
instantiated for SPI1), parameterized by the tag `t` of the `CR1`/`CR2`
tokens: `Spi::Input = Spi1Items … Sbt`, `Spi::Output = Spi1Items … Fbt`. -/
structure Spi1Items (ι α₁ α₂ β₁ β₂ β₃ β₄ β₅ : Type) (t : RegTag) where
  spi1 : ι
  spi1_cr1 : TaggedReg α₁ t
  spi1_cr2 : TaggedReg α₂ t
  spi1_crcpr : β₁
  spi1_dr : β₂
  spi1_rxcrcr : β₃
  spi1_sr : β₄
  spi1_txcrcr : β₅

/-- The `Spi1` handle (src/peripherals/spi.rs lines 106-116 as instantiated
for SPI1). -/
structure Spi1 (ι α₁ α₂ β₁ β₂ β₃ β₄ β₅ : Type) where
  irq : ι
  cr1 : TaggedReg α₁ .fbt
  cr2 : TaggedReg α₂ .fbt
  crcpr : β₁
  dr : β₂
  rxcrcr : β₃
  sr : β₄
  txcrcr : β₅

/-- Embeds `Spi::compose` (src/peripherals/spi.rs lines 160-173): builds the
handle from the input bundle; `CR1` and `CR2` pass through `.into()`. -/
def Spi1.compose (input : Spi1Items ι α₁ α₂ β₁ β₂ β₃ β₄ β₅ .sbt) :
    Spi1 ι α₁ α₂ β₁ β₂ β₃ β₄ β₅ where
  irq := input.spi1
  cr1 := input.spi1_cr1.retag
  cr2 := input.spi1_cr2.retag
  crcpr := input.spi1_crcpr
  dr := input.spi1_dr
  rxcrcr := input.spi1_rxcrcr
  sr := input.spi1_sr
  txcrcr := input.spi1_txcrcr

/-- Embeds `Spi::decompose` (src/peripherals/spi.rs lines 175-188): consumes
the handle and returns the output bundle, field for field. -/
def Spi1.decompose (s : Spi1 ι α₁ α₂ β₁ β₂ β₃ β₄ β₅) :
    Spi1Items ι α₁ α₂ β₁ β₂ β₃ β₄ β₅ .fbt where
  spi1 := s.irq
  spi1_cr1 := s.cr1
  spi1_cr2 := s.cr2
  spi1_crcpr := s.crcpr
  spi1_dr := s.dr
  spi1_rxcrcr := s.rxcrcr
  spi1_sr := s.sr
  spi1_txcrcr := s.txcrcr

/-! ## SPI flag-cleared-during combinators (src/peripherals/spi.rs) -/

/-- A value of the SPI `CR1` register, with the `SPE` (module enable) bit
named and the remaining bits abstracted; the field accessors `clear`/`set`
touch only the named bit (bit layout supplied by the external
register-description subsystem). -/
structure Cr1Val where
  spe : Bool
  rest : Nat
deriving DecidableEq, Repr

/-- Clears the `SPE` bit of a `CR1` value (`cr1_spe.clear(&mut cr1_val)`). -/
def Cr1Val.clearSpe (v : Cr1Val) : Cr1Val :=
  { v with spe := false }

/-- Sets the `SPE` bit of a `CR1` value (`cr1_spe.set(&mut cr1_val)`). -/
def Cr1Val.setSpe (v : Cr1Val) : Cr1Val :=
  { v with spe := true }

/-- A value of the SPI `CR2` register, with the `TXDMAEN` (transmit DMA
request enable) bit named and the remaining bits abstracted. -/
structure Cr2Val where
  txdmaen : Bool
  rest : Nat
deriving DecidableEq, Repr

/-- Clears the `TXDMAEN` bit of a `CR2` value. -/
def Cr2Val.clearTxdmaen (v : Cr2Val) : Cr2Val :=
  { v with txdmaen := false }

/-- Sets the `TXDMAEN` bit of a `CR2` value. -/
def Cr2Val.setTxdmaen (v : Cr2Val) : Cr2Val :=
  { v with txdmaen := true }

/-- The stored state of the SPI control registers observable by the
combinators: the last value stored to `CR1` and to `CR2`. -/
structure SpiHw where
  cr1 : Cr1Val
  cr2 : Cr2Val
deriving DecidableEq, Repr

/-- Embeds `spe_after` (src/peripherals/spi.rs lines 250-267): clear `SPE` in
the caller-supplied `cr1_val` and store it, run the body `f` with the handle
(the hardware state is threaded through `f`), then set `SPE` in the same
local value, store it, and return the body's result. -/
def spe_after (cr1_val : Cr1Val) (f : SpiHw → ρ × SpiHw) (hw : SpiHw) :
    ρ × SpiHw :=
  let v := Cr1Val.clearSpe cr1_val
  let hw1 := { hw with cr1 := v }
  let res := f hw1
  let v2 := Cr1Val.setSpe v
  (res.1, { res.2 with cr1 := v2 })

/-- Embeds `txdmaen_after` (src/peripherals/spi.rs lines 269-286): identical
shape with the `TXDMAEN` bit of `CR2`. -/
def txdmaen_after (cr2_val : Cr2Val) (f : SpiHw → ρ × SpiHw) (hw : SpiHw) :
    ρ × SpiHw :=
  let v := Cr2Val.clearTxdmaen cr2_val
  let hw1 := { hw with cr2 := v }
  let res := f hw1
  let v2 := Cr2Val.setTxdmaen v
  (res.1, { res.2 with cr2 := v2 })

/-! ## Blocking stream adapter (src/thr/stream.rs) -/

/-- One answer of `poll_next` on the underlying asynchronous sequence:
`pending` (not ready yet), `ready (some item)`, or `ready none` (the sequence
signals exhaustion). -/
inductive StreamPoll (α : Type) where
  | pending : StreamPoll α
  | ready : Option α → StreamPoll α
deriving Repr

/-- The `StreamTrunkWait` adapter state (src/thr/stream.rs lines 7-11): the
underlying stream's state and the `exhausted` fuse. -/
structure StreamTrunkWait (σ α : Type) where
  stream : σ
  exhausted : Bool

/-- The polling loop inside `StreamTrunkWait::next` (src/thr/stream.rs lines
44-53).  `poll` embeds `poll_next` on the underlying stream as a state
transformer.  On `pending` the real code blocks in `WakeTrunk::wait()` and
retries; `fuel` bounds the retries in the embedding, and an answer of `none`
means the call is still blocked after `fuel` polls.  The trailing `Nat`
accumulates the number of polls issued to the underlying stream. -/
def trunkNextLoop (poll : σ → StreamPoll α × σ) :
    Nat → σ → Nat → Option (Option α) × σ × Nat
  | 0, s, k => (none, s, k)
  | fuel + 1, s, k =>
    match poll s with
    | (.pending, s1) => trunkNextLoop poll fuel s1 (k + 1)
    | (.ready (some item), s1) => (some (some item), s1, k + 1)
    | (.ready none, s1) => (some none, s1, k + 1)

/-- Embeds `StreamTrunkWait::next` (src/thr/stream.rs lines 39-54): if the
fuse is set, return `None` immediately (without touching the underlying
stream); otherwise run the polling loop, and set the fuse when the stream
reports exhaustion.  The result carries the (possibly still blocked) answer,
the successor adapter state, and the number of polls issued to the underlying
stream during this call. -/
def StreamTrunkWait.next (poll : σ → StreamPoll α × σ) (fuel : Nat)
    (w : StreamTrunkWait σ α) :
    Option (Option α) × StreamTrunkWait σ α × Nat :=
  if w.exhausted then (some none, w, 0)
  else
    match trunkNextLoop poll fuel w.stream 0 with
    | (none, s1, k) => (none, ⟨s1, w.exhausted⟩, k)
    | (some (some item), s1, k) => (some (some item), ⟨s1, w.exhausted⟩, k)
    | (some none, s1, k) => (some none, ⟨s1, true⟩, k)

/-! ## ITM trace sink and panic-to-reset (src/itm/macros.rs, src/panicking.rs) -/

/-- Modelled from the spec: the body of the `itm` module (with `is_enabled`,
`write_str`, `write_fmt`, `flush` and the port constants) is not under src/,
only its users are.  Per the spec the trace sink is a buffered trace port
whose output is observed only when a trace consumer (debug probe) is
attached.  We model the sink as the list of `(port, text)` writes, and a raw
write as an unconditional append to it. -/
def itmWriteRaw (port : Nat) (s : String) (sink : List (Nat × String)) :
    List (Nat × String) :=
  sink ++ [(port, s)]

/-- Embeds the `print!` macro (src/itm/macros.rs lines 32-44): writes `s` to
the stdout port (`STDOUT_PORT`, port 0 — modelled from the spec, the constant
is in the missing `itm` module) only under the `is_enabled()` guard;
`attached` is the answer of that is-a-consumer-attached query. -/
def printMacro (attached : Bool) (s : String) (sink : List (Nat × String)) :
    List (Nat × String) :=
  if attached then itmWriteRaw 0 s sink else sink

/-- Embeds the `eprint!` macro (src/itm/macros.rs lines 89-101): identical to
`print!` with the stderr port (`STDERR_PORT`, port 1). -/
def eprintMacro (attached : Bool) (s : String) (sink : List (Nat × String)) :
    List (Nat × String) :=
  if attached then itmWriteRaw 1 s sink else sink

/-- An event of the panic-to-reset sequence: an emission of diagnostic text
to the trace sink, a flush of the sink, the system-reset request, or the
final do-nothing spin loop (which never returns). -/
inductive TraceEvent where
  | emit : String → TraceEvent
  | flushPort : TraceEvent
  | resetRequest : TraceEvent
  | spinForever : TraceEvent
deriving DecidableEq, Repr

/-- Modelled from the spec: the `iprint!`/`iprintln!` macros and
`itm::write_fmt` used by the panic handler are not under src/.  Per the spec,
diagnostic text reaches the trace sink only if a consumer is attached ("no
debug probe ⇒ no output, by design"); so one panic-handler write emits its
text exactly when `attached`. -/
def itmEmit (attached : Bool) (s : String) : List TraceEvent :=
  if attached then [.emit s] else []

/-- Embeds the panic handler `begin` (src/panicking.rs lines 12-24) as its
event trace: print `panicked at '`, the formatted panic arguments, and the
closing quote with the source location; then `itm::flush()`; then
`util::reset_request()` (modelled from the spec — `util` is not under src/;
its src analogue `self_reset`, src/processor.rs lines 52-71, stores the
`AIRCR` reset request); then `loop {}`, spinning until the reset takes
effect. -/
def panickingBegin (attached : Bool) (args file : String) (line : Nat) :
    List TraceEvent :=
  itmEmit attached "panicked at '" ++
  itmEmit attached args ++
  itmEmit attached ("', " ++ file ++ ":" ++ toString line ++ "\n") ++
  [.flushPort, .resetRequest, .spinForever]

/-! ## Exclusive-token ownership machine

Modelled from the spec: Exclusive register tokens are enforced by Rust's
move-only (affine) value discipline, which has no runtime representation
under src/.  Following the spec's testable property ("construct a model that
rejects any program attempting to obtain two Exclusive tokens for one
field"), the machine below tracks the live Exclusive tokens through the
`compose`/`fork`/`decompose` operations of the peripheral layer and rejects
(`none`) any program step that consumes a token it does not hold. -/

/-- An Exclusive token: either the whole-register token of register `r`, or
the token of field `i` of register `r` (the result of forking the whole
token, as `spe_after` forks `CR1` into its `SPE` field). -/
inductive Token where
  | whole : Nat → Token
  | field : Nat → Nat → Token
deriving DecidableEq, Repr

/-- The register fields a token grants exclusive access to, as a decidable
test: the whole-register token of `r` covers every one of the `nf r` fields
of `r` (`nf` is the field count supplied by the external
register-description subsystem); a field token covers exactly its field. -/
def Token.covers (nf : Nat → Nat) : Token → Nat × Nat → Bool
  | .whole r, (r', i) => r' == r && decide (i < nf r)
  | .field r i, (r', i') => r' == r && i' == i

/-- The ownership state: the free live tokens, and the live peripheral
handles, each owning the bundle of tokens it was composed from. -/
structure OwnState where
  free : List Token
  handles : List (List Token)
deriving DecidableEq, Repr

/-- All live tokens: the free ones plus those owned by handles. -/
def OwnState.live (s : OwnState) : List Token :=
  s.free ++ s.handles.flatten

/-- One operation of the ownership machine, mirroring the peripheral API:
`compose` a handle from a bundle of free tokens, `decompose` a live handle
back into free tokens, `fork` a whole-register token into its field
tokens. -/
inductive Op where
  | compose : List Token → Op
  | decompose : List Token → Op
  | fork : Nat → Op
deriving DecidableEq, Repr

/-- Removes one occurrence of each listed token from `l`; answers `none` when
some listed token is not present — the machine's rejection of a program that
tries to consume a token it does not hold. -/
def removeTokens : List Token → List Token → Option (List Token)
  | [], l => some l
  | t :: ts, l => if t ∈ l then removeTokens ts (l.erase t) else none

/-- Removes one occurrence of a live handle with content `ts` from the handle
list; answers `none` when no such handle is live — the machine's rejection of
decomposing a handle that does not exist or was already consumed. -/
def removeHandle : List (List Token) → List Token → Option (List (List Token))
  | [], _ => none
  | hd :: hs, ts =>
    if hd = ts then some hs else (removeHandle hs ts).map (hd :: ·)

/-- Executes one operation.  `compose ts` consumes the listed free tokens and
creates a handle owning them (`Dma::compose`/`Spi::compose` consume the Items
bundle by value); `decompose ts` consumes a live handle with that content and
frees its tokens (`decompose` consumes the handle by value); `fork r`
consumes a free whole-register token and produces its `nf r` field tokens
(`fork()` consumes the composite).  Any operation whose operand is not live
is rejected. -/
def execOp (nf : Nat → Nat) (s : OwnState) : Op → Option OwnState
  | .compose ts => (removeTokens ts s.free).map fun fr => ⟨fr, s.handles ++ [ts]⟩
  | .decompose ts =>
    (removeHandle s.handles ts).map fun hs => ⟨s.free ++ ts, hs⟩
  | .fork r =>
    if Token.whole r ∈ s.free then
      some ⟨s.free.erase (.whole r) ++ (List.range (nf r)).map (Token.field r),
            s.handles⟩
    else none

/-- Executes a sequence of operations, rejecting the whole program as soon as
one operation is rejected. -/
def execProg (nf : Nat → Nat) : List Op → OwnState → Option OwnState
  | [], s => some s
  | op :: ops, s =>
    match execOp nf s op with
    | none => none
    | some s1 => execProg nf ops s1

/-- The aliasing invariant: for every register field, at most one live
Exclusive token covers it. -/
def NoAlias (nf : Nat → Nat) (s : OwnState) : Prop :=
  ∀ fld : Nat × Nat, (s.live.countP fun t => t.covers nf fld) ≤ 1

/-! ## Theorems: claims C1, C2, C5, C10 -/

/-- Claim C1: on every poll of a `transfer_complete` or `half_transfer`
routine future, the transfer-error flag is tested before the completion flag,
so on any poll where both the error flag and the completion flag are set the
future resolves `Err` and never `Ok` — for every value of the remaining
status bits. -/
theorem err_checked_before_completion (η : Type) (h : η) (tc ht cg : Bool) :
    (transferCompleteStep h ⟨⟨true, tc, ht⟩, cg⟩).1 = .resolved (.error h) ∧
    (halfTransferStep h ⟨⟨true, tc, ht⟩, cg⟩).1 = .resolved (.error h) := by
  constructor <;> rfl

/-- Claim C5: against a simulated vector whose status register reports neither
error nor completion on the first two polls and completion on the third, the
`transfer_complete` closure yields exactly twice and then resolves
`Ok(handle)` with the clear-flags bit written and the status flags cleared;
with the error flag set on the first poll it resolves `Err(handle)` with zero
suspensions, likewise with flags cleared. -/
theorem routine_future_scenarios (η : Type) (h : η) :
    runRoutine transferCompleteStep h
        [⟨false, false, false⟩, ⟨false, false, false⟩, ⟨false, true, false⟩] 0 =
      some (2, .ok h, ⟨⟨false, false, false⟩, true⟩) ∧
    runRoutine transferCompleteStep h [⟨true, false, false⟩] 0 =
      some (0, .error h, ⟨⟨false, false, false⟩, true⟩) := by
  constructor <;> rfl

theorem critical_primask_eq {ρ : Type} (f : Cpu → ρ × Cpu) (hf : MaskPreserving f)
    (c : Cpu) : ((interrupt.critical f c).2).primask = c.primask := by
  cases hp : c.primask with
  | false =>
    simp [interrupt.critical, interrupt.criticalOver, cpuMaskOps,
      interrupt.primaskRead, hp, interrupt.enable]
  | true =>
    simp [interrupt.critical, interrupt.criticalOver, cpuMaskOps,
      interrupt.primaskRead, hp, interrupt.disable]
    exact hf _ rfl

theorem nestedCritical_maskPreserving {ρ : Type} (f : Cpu → ρ × Cpu)
    (hf : MaskPreserving f) (n : Nat) :
    MaskPreserving (interrupt.nestedCritical n f) := by
  induction n with
  | zero => exact hf
  | succ n ih =>
    intro c hc
    have := critical_primask_eq (interrupt.nestedCritical n f) ih c
    rw [interrupt.nestedCritical, this, hc]

/-- Claim C2: for every nesting depth `n ≥ 1`, every mask-preserving innermost
closure and every initial interrupt-mask state, after the nested `critical`
calls complete the global interrupt-enable state equals exactly the state
before the outermost call began: `critical` reads the mask, unconditionally
disables interrupts, runs the closure, and re-enables interrupts only if they
were enabled on entry. -/
theorem critical_nesting_restores_mask {ρ : Type} (f : Cpu → ρ × Cpu)
    (hf : MaskPreserving f) (n : Nat) (c : Cpu) :
    ((interrupt.nestedCritical (n + 1) f c).2).primask = c.primask := by
  rw [interrupt.nestedCritical]
  exact critical_primask_eq _ (nestedCritical_maskPreserving f hf n) c

/-- Witness for C2: two nested critical sections around the identity closure,
started with interrupts enabled, end with interrupts enabled. -/
theorem critical_nesting_restores_mask_witness :
    ((interrupt.nestedCritical 2 (fun c : Cpu => ((), c)) ⟨false⟩).2).primask =
      Cpu.primask ⟨false⟩ :=
  critical_nesting_restores_mask (fun c => ((), c)) (fun _ hc => hc) 1 ⟨false⟩

/-- Claim C10: for every closure and every initial state, `critical f` invokes
`f` exactly once (the ghost call counter advances by exactly one) and returns
exactly the value `f` returned, unchanged — both at the ghost-instrumented
state and at the concrete `Cpu` state. -/
theorem critical_invokes_once {ρ : Type} (g : Cpu → ρ × Cpu) (s : CpuGhost)
    (c : Cpu) :
    ((interrupt.criticalOver ghostMaskOps (ghostClosure g) s).2).calls =
        s.calls + 1 ∧
    (interrupt.criticalOver ghostMaskOps (ghostClosure g) s).1 =
        (g (interrupt.disable s.cpu)).1 ∧
    (interrupt.critical g c).1 = (g (interrupt.disable c)).1 := by
  refine ⟨?_, rfl, rfl⟩
  simp only [interrupt.criticalOver, ghostMaskOps, ghostClosure]
  split <;> rfl

/-- Claim C3: `decompose (compose items) = items` for every valid items
bundle, whatever values the tokens carry — literal field-for-field identity
for the DMA channel; for the SPI instance, whose `decompose` returns the
bundle with `CR1`/`CR2` retagged from `Sbt` to `Fbt` type state, every datum
of every field (including the register identity carried by the retagged
`CR1`/`CR2` tokens) is returned identically, with no loss or duplication. -/
theorem decompose_compose_roundtrip
    (ι γ₁ γ₂ γ₃ γ₄ δ₁ δ₂ δ₃ δ₄ ε₁ ε₂ ε₃ ε₄ α₁ α₂ β₁ β₂ β₃ β₄ β₅ : Type) :
    (∀ items : Dma1Ch1Items ι γ₁ γ₂ γ₃ γ₄ δ₁ δ₂ δ₃ δ₄ ε₁ ε₂ ε₃ ε₄,
      (Dma1Ch1.compose items).decompose = items) ∧
    (∀ input : Spi1Items ι α₁ α₂ β₁ β₂ β₃ β₄ β₅ .sbt,
      (Spi1.compose input).decompose =
        ⟨input.spi1, input.spi1_cr1.retag, input.spi1_cr2.retag,
         input.spi1_crcpr, input.spi1_dr, input.spi1_rxcrcr, input.spi1_sr,
         input.spi1_txcrcr⟩ ∧
      ((Spi1.compose input).decompose.spi1_cr1.payload =
          input.spi1_cr1.payload ∧
        (Spi1.compose input).decompose.spi1_cr2.payload =
          input.spi1_cr2.payload)) := by
  refine ⟨fun items => ?_, fun input => ⟨rfl, rfl, rfl⟩⟩
  cases items
  rfl

/-- Claim C6: `spe_after` and `txdmaen_after` clear the named control bit
(`SPE` / `TXDMAEN`) in the supplied register value and store it (the body
runs with the bit stored clear), run the body with the handle, then restore
the bit — store the value with the bit set — and return the body's result;
on normal exit of the body the bit is always back on. -/
theorem flag_cleared_during_combinators {ρ : Type} (v1 : Cr1Val) (v2 : Cr2Val)
    (f g : SpiHw → ρ × SpiHw) (hw : SpiHw) :
    ((spe_after v1 f hw).1 = (f { hw with cr1 := v1.clearSpe }).1 ∧
      ({ hw with cr1 := v1.clearSpe } : SpiHw).cr1.spe = false ∧
      (spe_after v1 f hw).2.cr1 = v1.setSpe ∧
      (spe_after v1 f hw).2.cr1.spe = true) ∧
    ((txdmaen_after v2 g hw).1 = (g { hw with cr2 := v2.clearTxdmaen }).1 ∧
      ({ hw with cr2 := v2.clearTxdmaen } : SpiHw).cr2.txdmaen = false ∧
      (txdmaen_after v2 g hw).2.cr2 = v2.setTxdmaen ∧
      (txdmaen_after v2 g hw).2.cr2.txdmaen = true) := by
  refine ⟨⟨rfl, rfl, ?_, rfl⟩, ⟨rfl, rfl, ?_, rfl⟩⟩
  · show Cr1Val.setSpe (Cr1Val.clearSpe v1) = v1.setSpe
    cases v1; rfl
  · show Cr2Val.setTxdmaen (Cr2Val.clearTxdmaen v2) = v2.setTxdmaen
    cases v2; rfl

/-- Claim C4: the adapter is fused.  If the fuse is set, `next` answers `None`
immediately, leaves the adapter unchanged and issues zero polls to the
underlying stream; and whenever a call to `next` answers `None` (exhaustion
reported), the successor state has the fuse set — so every subsequent call
answers `None` and the underlying stream is never polled again. -/
theorem stream_trunk_wait_fused {σ α : Type} (poll : σ → StreamPoll α × σ)
    (fuel : Nat) (w : StreamTrunkWait σ α) :
    (w.exhausted = true → StreamTrunkWait.next poll fuel w = (some none, w, 0)) ∧
    (∀ w1 k, StreamTrunkWait.next poll fuel w = (some none, w1, k) →
      w1.exhausted = true) := by
  constructor
  · intro hw
    simp [StreamTrunkWait.next, hw]
  · intro w1 k h
    rw [StreamTrunkWait.next] at h
    split at h
    case isTrue hex =>
      simp only [Prod.mk.injEq] at h
      obtain ⟨-, hw1, -⟩ := h
      rw [← hw1]
      exact hex
    case isFalse hex =>
      split at h <;> simp only [Prod.mk.injEq] at h
      · exact absurd h.1 (by simp)
      · exact absurd h.1 (by simp)
      · obtain ⟨-, hw1, -⟩ := h
        rw [← hw1]

/-- Witness for C4: an already-exhausted adapter over a concrete stream
answers `None`, unchanged, with zero polls of the underlying stream. -/
theorem stream_trunk_wait_fused_witness :
    StreamTrunkWait.next (fun s : Nat => ((.ready none : StreamPoll Nat), s)) 3
        ⟨0, true⟩ =
      (some none, (⟨0, true⟩ : StreamTrunkWait Nat Nat), 0) :=
  (stream_trunk_wait_fused (fun s => (.ready none, s)) 3 ⟨0, true⟩).1 rfl

/-- Claim C7: with no trace consumer attached, `print!` and `eprint!` write
nothing to the trace sink, and a panic produces no diagnostic output at all —
its trace is exactly flush, reset request and spin (a silent reset). -/
theorem no_consumer_no_output (s args file : String) (line : Nat)
    (sink : List (Nat × String)) :
    printMacro false s sink = sink ∧
    eprintMacro false s sink = sink ∧
    panickingBegin false args file line =
      [.flushPort, .resetRequest, .spinForever] :=
  ⟨rfl, rfl, rfl⟩

/-- Claim C8: for every attachment state and every panic site, the panic
handler's trace is a block of diagnostic emissions followed, in order, by the
sink flush, the processor system-reset request, and the terminal do-nothing
spin; nothing follows the spin, so the handler never returns to the
caller. -/
theorem panic_emits_flushes_resets_spins (attached : Bool) (args file : String)
    (line : Nat) :
    ∃ es : List TraceEvent,
      panickingBegin attached args file line =
        es ++ [.flushPort, .resetRequest, .spinForever] ∧
      ∀ e ∈ es, ∃ s, e = .emit s := by
  refine ⟨itmEmit attached "panicked at '" ++ itmEmit attached args ++
    itmEmit attached ("', " ++ file ++ ":" ++ toString line ++ "\n"), ?_, ?_⟩
  · simp [panickingBegin, List.append_assoc]
  · intro e he
    cases attached <;> simp [itmEmit] at he
    rcases he with h | h | h <;> exact ⟨_, h⟩

theorem removeTokens_perm (ts : List Token) : ∀ l l' : List Token,
    removeTokens ts l = some l' → (l' ++ ts).Perm l := by
  induction ts with
  | nil =>
    intro l l' h
    simp only [removeTokens] at h
    injection h with h
    subst h
    simp
  | cons t ts ih =>
    intro l l' h
    rw [removeTokens] at h
    split at h
    case isTrue ht =>
      have hp := ih (l.erase t) l' h
      have h1 : (l' ++ t :: ts).Perm (t :: (l' ++ ts)) := List.perm_middle
      have h2 := hp.cons t
      have h3 := (List.perm_cons_erase ht).symm
      exact h1.trans (h2.trans h3)
    case isFalse hf => cases h

theorem removeHandle_perm : ∀ (hs : List (List Token)) (ts : List Token)
    (hs' : List (List Token)), removeHandle hs ts = some hs' →
    hs.Perm (ts :: hs') := by
  intro hs
  induction hs with
  | nil => intro ts hs' h; cases h
  | cons hd tl ih =>
    intro ts hs' h
    rw [removeHandle] at h
    split at h
    case isTrue heq =>
      injection h with h
      subst h
      subst heq
      exact List.Perm.refl _
    case isFalse hne =>
      cases hmap : removeHandle tl ts with
      | none => rw [hmap] at h; cases h
      | some tl' =>
        rw [hmap] at h
        injection h with h
        subst h
        exact ((ih ts tl' hmap).cons hd).trans (List.Perm.swap ts hd tl')

theorem countP_range_eq (n i : Nat) :
    ((List.range n).countP fun j => i == j) = if i < n then 1 else 0 := by
  induction n with
  | zero => simp
  | succ n ih =>
    rw [List.range_succ, List.countP_append, ih]
    simp only [List.countP_cons, List.countP_nil, beq_iff_eq]
    split_ifs <;> omega

theorem countP_fork_fields (nf : Nat → Nat) (r : Nat) (fld : Nat × Nat) :
    (((List.range (nf r)).map (Token.field r)).countP fun t => t.covers nf fld)
      = if (Token.whole r).covers nf fld then 1 else 0 := by
  obtain ⟨r', i'⟩ := fld
  rw [List.countP_map]
  by_cases hr : r' = r
  · subst hr
    simp only [Function.comp_def, Token.covers, beq_self_eq_true, Bool.true_and]
    rw [countP_range_eq]
    by_cases hi : i' < nf r' <;> simp [hi]
  · have hb : (r' == r) = false := by simp [hr]
    simp [Function.comp_def, Token.covers, hb]

theorem execOp_count (nf : Nat → Nat) (s s' : OwnState) (op : Op)
    (h : execOp nf s op = some s') (fld : Nat × Nat) :
    (s'.live.countP fun t => t.covers nf fld) =
      (s.live.countP fun t => t.covers nf fld) := by
  cases op with
  | compose ts =>
    simp only [execOp] at h
    cases hrem : removeTokens ts s.free with
    | none => rw [hrem] at h; cases h
    | some fr =>
      rw [hrem] at h
      injection h with h
      subst h
      have h2 := (removeTokens_perm ts s.free fr hrem).countP_eq
        (fun t => t.covers nf fld)
      rw [List.countP_append] at h2
      simp only [OwnState.live, List.countP_append, List.flatten_append,
        List.flatten_cons, List.flatten_nil, List.append_nil]
      omega
  | decompose ts =>
    simp only [execOp] at h
    cases hrem : removeHandle s.handles ts with
    | none => rw [hrem] at h; cases h
    | some hs1 =>
      rw [hrem] at h
      injection h with h
      subst h
      have hfl := (removeHandle_perm s.handles ts hs1 hrem).flatten
      have h2 := hfl.countP_eq (fun t => t.covers nf fld)
      simp only [List.flatten_cons, List.countP_append] at h2
      simp only [OwnState.live, List.countP_append]
      omega
  | fork r =>
    simp only [execOp] at h
    split at h
    case isTrue hmem =>
      injection h with h
      subst h
      have hp := (List.perm_cons_erase hmem).countP_eq
        (fun t => t.covers nf fld)
      rw [List.countP_cons] at hp
      simp only [OwnState.live, List.countP_append, countP_fork_fields]
      omega
    case isFalse hf => cases h

theorem execProg_count (nf : Nat → Nat) (ops : List Op) :
    ∀ s s' : OwnState, execProg nf ops s = some s' → ∀ fld : Nat × Nat,
      (s'.live.countP fun t => t.covers nf fld) =
        (s.live.countP fun t => t.covers nf fld) := by
  induction ops with
  | nil =>
    intro s s' h fld
    simp only [execProg] at h
    injection h with h
    subst h
    rfl
  | cons op ops ih =>
    intro s s' h fld
    simp only [execProg] at h
    cases hop : execOp nf s op with
    | none => rw [hop] at h; cases h
    | some s1 =>
      rw [hop] at h
      rw [ih s1 s' h fld, execOp_count nf s s1 op hop fld]

/-- Claim C9: for every field-count table, every program built from compose,
fork and decompose operations, and every aliasing-free start state, any state
the ownership machine accepts still has no two live Exclusive tokens covering
the same register field.  Compose consumes the Items bundle, decompose
consumes the handle, fork consumes the composite token; a token is only ever
moved, never duplicated, so the per-field count of live covering tokens is
invariant and stays at most one; a program that tries to consume a token it
does not hold is rejected by the machine. -/
theorem exclusive_tokens_never_alias (nf : Nat → Nat) (ops : List Op)
    (s s' : OwnState) (hs : NoAlias nf s) (h : execProg nf ops s = some s') :
    NoAlias nf s' := by
  intro fld
  rw [execProg_count nf ops s s' h fld]
  exact hs fld

/-- Witness for C9: starting from the whole-register token of a two-field
register, forking it and composing a handle from one field token is accepted
by the machine, and the resulting state keeps the no-aliasing invariant. -/
theorem exclusive_tokens_never_alias_witness :
    NoAlias (fun _ => 2) ⟨[Token.field 0 1], [[Token.field 0 0]]⟩ :=
  exclusive_tokens_never_alias (fun _ => 2)
    [Op.fork 0, Op.compose [Token.field 0 0]]
    ⟨[Token.whole 0], []⟩ ⟨[Token.field 0 1], [[Token.field 0 0]]⟩
    (by
      intro fld
      simp only [OwnState.live, List.flatten_nil, List.append_nil,
        List.countP_cons, List.countP_nil]
      split <;> simp)
    (by rfl)
